import Mathlib

/-!
Verification of the session-summary request pipeline of the DND-AI
repository (`pages/api/session-summary.ts`, streaming variant).

The TypeScript source is shallowly embedded below.  JavaScript strings are
Lean `String`s; `JSON.parse` is modelled at its boundary: a raw model string
is represented by its parse outcome, an `Option Json` where `none` stands
for a `JSON.parse` exception and `some j` for the parsed JSON value.
JavaScript property access, which throws a `TypeError` on `null`, is
modelled by `Json.getProp` returning `Except`; the `try`/`catch` in the
source becomes an explicit `Except` boundary.
-/

set_option autoImplicit false

instance {ε α : Type} [DecidableEq ε] [DecidableEq α] : DecidableEq (Except ε α)
  | Except.ok a, Except.ok b =>
    if h : a = b then Decidable.isTrue (by rw [h])
    else Decidable.isFalse (by simp [h])
  | Except.error e, Except.error f =>
    if h : e = f then Decidable.isTrue (by rw [h])
    else Decidable.isFalse (by simp [h])
  | Except.ok _, Except.error _ => Decidable.isFalse (by simp)
  | Except.error _, Except.ok _ => Decidable.isFalse (by simp)

namespace DndAI

/-- A JSON value as produced by a successful `JSON.parse`. -/
inductive Json where
  | null : Json
  | bool (b : Bool) : Json
  | num (n : Int) : Json
  | str (s : String) : Json
  | arr (elems : List Json) : Json
  | obj (fields : List (String × Json)) : Json

/-- Object key lookup; JavaScript objects keep the last duplicate key. -/
def lookupLast (fields : List (String × Json)) (key : String) : Option Json :=
  match fields with
  | [] => none
  | (k, v) :: rest =>
    match lookupLast rest key with
    | some w => some w
    | none => if k = key then some v else none

/-- JavaScript property access `v[key]`: throws a `TypeError` on `null`,
yields `undefined` (modelled `none`) on primitives and arrays, and looks the
key up on objects. -/
def Json.getProp : Json → String → Except String (Option Json)
  | Json.null, _ => Except.error "TypeError: Cannot read properties of null"
  | Json.obj fields, key => Except.ok (lookupLast fields key)
  | _, _ => Except.ok none

/-- Whitespace characters removed by `String.prototype.trim` (ASCII part). -/
def isWsChar (c : Char) : Bool :=
  c = ' ' || c = '\t' || c = '\n' || c = '\r'

/-- JavaScript `s.trim()`. -/
def strTrim (s : String) : String :=
  String.mk (((s.data.dropWhile isWsChar).reverse.dropWhile isWsChar).reverse)

/-- `PlayerSummary` from the source: `{name: string, points: string[]}`. -/
structure PlayerSummary where
  name : String
  points : List String
  deriving DecidableEq, Repr

/-- `ParsedSummaryResult` from the source:
`{overallSummary: string, summaries: PlayerSummary[]}`. -/
structure ParsedSummaryResult where
  overallSummary : String
  summaries : List PlayerSummary
  deriving DecidableEq, Repr

/-- Fixed fallback text used when the model reply cannot be parsed. -/
def parseFailureMessage : String := "The AI response could not be parsed."

/-- Fixed placeholder bullet for a roster name the model did not cover. -/
def missingPlayerMessage : String := "No summary was generated for this player."

/-- Fixed fallback overall summary when `dmSummary` is absent or blank. -/
def missingOverallMessage : String :=
  "The AI response did not include an overall summary for the Dungeon Master."

/-- The `catch` branch of `parseSummaries`: fallback overall summary plus one
placeholder entry per roster element. -/
def fallbackResult (players : List String) : ParsedSummaryResult :=
  ⟨parseFailureMessage, players.map (fun n => ⟨n, [parseFailureMessage]⟩)⟩

/-- The `points` cleanup from `parseSummaries`: keep string points that are
non-empty after trimming, and trim each kept point. -/
def cleanPoints (pts : List Json) : List String :=
  pts.filterMap (fun p =>
    match p with
    | Json.str s => if 0 < (strTrim s).length then some (strTrim s) else none
    | _ => none)

/-- One step of the `filter`/`map` over `parsed.players`: the predicate
`typeof entry.name === "string" && Array.isArray(entry.points)` (property
access on a `null` entry throws), and the mapping to a `PlayerSummary`. -/
def entrySummary (e : Json) : Except String (Option PlayerSummary) :=
  match e.getProp "name" with
  | Except.error err => Except.error err
  | Except.ok (some (Json.str n)) =>
    match e.getProp "points" with
    | Except.error err => Except.error err
    | Except.ok (some (Json.arr ps)) => Except.ok (some ⟨n, cleanPoints ps⟩)
    | Except.ok _ => Except.ok none
  | Except.ok _ => Except.ok none

/-- Sequential evaluation of the entry filter over `parsed.players`; the
first throwing entry aborts the whole `try` block. -/
def parseEntries : List Json → Except String (List PlayerSummary)
  | [] => Except.ok []
  | e :: rest =>
    match entrySummary e with
    | Except.error err => Except.error err
    | Except.ok s =>
      match parseEntries rest with
      | Except.error err => Except.error err
      | Except.ok tail =>
        Except.ok (match s with
          | some summary => summary :: tail
          | none => tail)

/-- Insertion-order deduplication, as performed by `new Set(players)`. -/
def dedupFirst : List String → List String
  | [] => []
  | x :: xs => x :: (dedupFirst xs).filter (fun y => y != x)

/-- Reconciliation (source lines 160-172): the roster names with no kept
entry of the same name, computed over the set of roster names, are appended
as synthetic placeholder entries, in roster first-occurrence order. -/
def reconcile (kept : List PlayerSummary) (players : List String) :
    List PlayerSummary :=
  kept ++ ((dedupFirst players).filter
      (fun p => decide (p ∉ kept.map PlayerSummary.name))).map
    (fun n => ⟨n, [missingPlayerMessage]⟩)

/-- The `try` block of `parseSummaries` (source lines 140-182).  Throw sites
(`JSON.parse`, the shape check, property access on `null` entries) are
`Except.error`. -/
def parseSummariesBody (raw : Option Json) (players : List String) :
    Except String ParsedSummaryResult :=
  match raw with
  | none => Except.error "SyntaxError: Unexpected token in JSON"
  | some parsed =>
    match parsed.getProp "players" with
    | Except.error e => Except.error e
    | Except.ok (some (Json.arr entries)) =>
      match parseEntries entries with
      | Except.error e => Except.error e
      | Except.ok kept =>
        match parsed.getProp "dmSummary" with
        | Except.error e => Except.error e
        | Except.ok (some (Json.str s)) =>
          if 0 < (strTrim s).length then
            Except.ok ⟨strTrim s, reconcile kept players⟩
          else Except.ok ⟨missingOverallMessage, reconcile kept players⟩
        | Except.ok _ => Except.ok ⟨missingOverallMessage, reconcile kept players⟩
    | Except.ok _ => Except.error "Invalid response shape"

/-- `parseSummaries` (source lines 139-193): the `try` body with its `catch`
returning the fixed fallback result. -/
def parseSummaries (raw : Option Json) (players : List String) :
    ParsedSummaryResult :=
  match parseSummariesBody raw players with
  | Except.ok r => r
  | Except.error _ => fallbackResult players

/-- ASCII part of JavaScript `toLowerCase`, the only case mapping exercised
by the handler's filenames and MIME types. -/
def asciiLowerChar (c : Char) : Char :=
  if 'A' ≤ c && c ≤ 'Z' then Char.ofNat (c.toNat + 32) else c

/-- `s.toLowerCase()` over ASCII. -/
def strToLower (s : String) : String :=
  String.mk (s.data.map asciiLowerChar)

/-- `s.endsWith(suffix)`. -/
def strEndsWith (s suffix : String) : Bool :=
  List.isSuffixOf suffix.data s.data

/-- A character matched by the regex class `[a-z0-9]` with the `i` flag. -/
def isAlnumChar (c : Char) : Bool :=
  ('a' ≤ c && c ≤ 'z') || ('A' ≤ c && c ≤ 'Z') || ('0' ≤ c && c ≤ '9')

/-- `extensionFromFilename` (source lines 57-61): the last dot-separated
alphanumeric suffix of the filename, matched case-insensitively by
`/\.([a-z0-9]+)$/i` and lowercased; `""` when the filename is absent, empty,
or has no such suffix. -/
def extensionFromFilename (fileName : Option String) : String :=
  match fileName with
  | none => ""
  | some s =>
    if s = "" then ""
    else
      let rev := s.data.reverse
      let run := rev.takeWhile isAlnumChar
      match rev.drop run.length with
      | '.' :: _ =>
        if run.isEmpty then "" else String.mk ((run.map asciiLowerChar).reverse)
      | _ => ""

/-- `extensionFromMime` (source lines 63-78): the fixed MIME-type table. -/
def extensionFromMime (mimeType : Option String) : String :=
  match mimeType with
  | none => ""
  | some s =>
    if s = "" then ""
    else
      let m := strToLower s
      if m = "audio/mpeg" then "mp3"
      else if m = "audio/mp3" then "mp3"
      else if m = "audio/wav" then "wav"
      else if m = "audio/x-wav" then "wav"
      else if m = "audio/webm" then "webm"
      else if m = "audio/ogg" then "ogg"
      else if m = "audio/aac" then "aac"
      else if m = "audio/mp4" then "m4a"
      else if m = "audio/x-m4a" then "m4a"
      else if m = "audio/flac" then "flac"
      else ""

/-- The uploaded-file handle produced by formidable:
`{originalFilename, mimetype, filepath, size}`. -/
structure FormFile where
  originalFilename : Option String
  mimetype : Option String
  filepath : String
  size : Nat
  deriving DecidableEq, Repr

/-- `nameExt || mimeExt` (source line 83): filename extension in priority
over the MIME table. -/
def resolvedExtension (f : FormFile) : String :=
  let nameExt := extensionFromFilename f.originalFilename
  if nameExt = "" then extensionFromMime f.mimetype else nameExt

/-- Successful filesystem operations performed by one request. -/
inductive FsOp where
  | rename (src dst : String) : FsOp
  | copy (src dst : String) : FsOp
  | unlink (path : String) : FsOp
  deriving DecidableEq, Repr

/-- `ensureExtensionOnPath` (source lines 80-110).  The filesystem is
modelled by two environment booleans: `renameFails` makes `fsPromises.rename`
throw (the cross-device case) and `copyFails` makes the fallback
`fsPromises.copyFile` throw.  Returns the readable path together with the
successful filesystem operations, or the propagated copy error. -/
def ensureExtensionOnPath (renameFails copyFails : Bool) (f : FormFile) :
    Except String (String × List FsOp) :=
  if resolvedExtension f = "" then Except.ok (f.filepath, [])
  else if strEndsWith (strToLower f.filepath) ("." ++ resolvedExtension f) then
    Except.ok (f.filepath, [])
  else if renameFails then
    if copyFails then Except.error "EACCES: copy failed"
    else Except.ok (f.filepath ++ "." ++ resolvedExtension f,
      [FsOp.copy f.filepath (f.filepath ++ "." ++ resolvedExtension f),
       FsOp.unlink f.filepath])
  else Except.ok (f.filepath ++ "." ++ resolvedExtension f,
    [FsOp.rename f.filepath (f.filepath ++ "." ++ resolvedExtension f)])

/-- A `players` form-field string together with its `JSON.parse` outcome
(`none` when parsing it throws). -/
def FieldEntry : Type := String × Option Json

/-- The `fields.players` value: absent, one string, or an array of strings. -/
inductive FieldVal where
  | absent : FieldVal
  | one (entry : String × Option Json) : FieldVal
  | many (entries : List (String × Option Json)) : FieldVal

/-- A formidable `files` entry: absent, a single file, or an array. -/
inductive FileVal where
  | absent : FileVal
  | single (f : FormFile) : FileVal
  | many (fs : List FormFile) : FileVal

/-- The decoded multipart payload handed to the orchestrator. -/
structure Multipart where
  players : FieldVal
  audio : FileVal
  file : FileVal

/-- The request environment: configuration plus the outcomes of every
external effect the handler performs, in the order it performs them.
`completion` is the chat-completion call: an upstream error, a missing
`content` (`ok none`), or content represented by its `JSON.parse` outcome. -/
structure HandlerEnv where
  hasApiKey : Bool
  multipart : Except String Multipart
  renameFails : Bool
  copyFails : Bool
  statSize : Nat
  transcription : Except String String
  completion : Except String (Option (Option Json))

/-- One newline-delimited frame of the streaming response. -/
inductive Frame where
  | progress (message : String) : Frame
  | error (message : String) : Frame
  | result (transcript : String) (dmSummary : String)
      (summaries : List PlayerSummary) : Frame
  deriving DecidableEq, Repr

/-- The observable outcome of one request: status code, headers, an optional
pre-stream JSON error body (its `error` string), the streamed frames, and the
successful filesystem operations. -/
structure HandlerResult where
  status : Nat
  headers : List (String × String)
  jsonError : Option String
  frames : List Frame
  fsOps : List FsOp
  deriving DecidableEq, Repr

/-- One entry of the `players`-field normalization (source lines 259-281):
a string is parsed as JSON; only a decoded array is spread, any other
outcome keeps the raw string as a single name. -/
def normalizeEntry (e : String × Option Json) : List Json :=
  match e.2 with
  | some (Json.arr xs) => xs
  | _ => [Json.str e.1]

/-- Roster extraction from the `players` field (source lines 256-282).  The
produced values are JavaScript values, not yet checked to be strings. -/
def normalizePlayers : FieldVal → List Json
  | FieldVal.absent => []
  | FieldVal.one e => normalizeEntry e
  | FieldVal.many es => (es.map normalizeEntry).flatten

/-- `playerNames.map((player) => player.trim())` (source line 290): calling
`trim` on a non-string value throws a `TypeError`. -/
def trimAll : List Json → Except String (List String)
  | [] => Except.ok []
  | Json.str s :: rest => do
    let tail ← trimAll rest
    pure (strTrim s :: tail)
  | _ :: _ => Except.error "TypeError: player.trim is not a function"

/-- `files.audio ?? files.file`, the array/single normalization, and the
`!audioFile || !audioFile.filepath` check (source lines 298-307). -/
def audioFileOf (mp : Multipart) : Option FormFile :=
  let av := match mp.audio with
    | FileVal.absent => mp.file
    | v => v
  match av with
  | FileVal.absent => none
  | FileVal.single f => if f.filepath = "" then none else some f
  | FileVal.many [] => none
  | FileVal.many (f :: _) => if f.filepath = "" then none else some f

/-- The streamed part of the handler (source lines 245-419): everything
inside the outer `try` once the 200 status and stream headers are committed.
Returns the frames written and the filesystem operations performed; every
thrown error is converted by the outer `catch` into a terminal error frame.
The external transcription and completion calls are the oracles carried by
`HandlerEnv`. -/
def runStream (env : HandlerEnv) : List Frame × List FsOp :=
  let p0 := [Frame.progress "Parsing upload"]
  match env.multipart with
  | Except.error e => (p0 ++ [Frame.error e], [])
  | Except.ok mp =>
    let playerNames := normalizePlayers mp.players
    if playerNames.isEmpty then
      (p0 ++ [Frame.error "At least one player name is required"], [])
    else
      match trimAll playerNames with
      | Except.error e => (p0 ++ [Frame.error e], [])
      | Except.ok trimmed =>
        let cleanedPlayers := trimmed.filter (fun s => s.length != 0)
        if cleanedPlayers.isEmpty then
          (p0 ++ [Frame.error "Player names cannot be empty"], [])
        else
          match audioFileOf mp with
          | none => (p0 ++ [Frame.error "Audio file is required"], [])
          | some audioFile =>
            let p1 := p0 ++ [Frame.progress "Preparing audio for transcription"]
            match ensureExtensionOnPath env.renameFails env.copyFails audioFile with
            | Except.error e => (p1 ++ [Frame.error e], [])
            | Except.ok (readablePath, ops1) =>
              if env.statSize = 0 then
                (p1 ++ [Frame.error "Uploaded audio file is empty"],
                 ops1 ++ [FsOp.unlink readablePath])
              else
                let p2 := p1 ++
                  [Frame.progress "Transcribing audio - this may take a while"]
                match env.transcription with
                | Except.error e =>
                  (p2 ++ [Frame.error e], ops1 ++ [FsOp.unlink readablePath])
                | Except.ok text =>
                  let transcriptText := strTrim text
                  let p3 := p2 ++ [Frame.progress "Transcription complete"]
                  let ops2 := ops1 ++ [FsOp.unlink readablePath]
                  if transcriptText = "" then
                    (p3 ++ [Frame.error "Transcription failed"], ops2)
                  else
                    let p4 := p3 ++
                      [Frame.progress "Generating player summaries"]
                    match env.completion with
                    | Except.error e => (p4 ++ [Frame.error e], ops2)
                    | Except.ok none =>
                      (p4 ++ [Frame.error "No summary returned by model"], ops2)
                    | Except.ok (some raw) =>
                      let parsed := parseSummaries raw cleanedPlayers
                      (p4 ++ [Frame.progress "Summaries ready",
                              Frame.result transcriptText parsed.overallSummary
                                parsed.summaries], ops2)

/-- The stream-mode response headers (source lines 211-213). -/
def streamHeaders : List (String × String) :=
  [("Content-Type", "application/json; charset=utf-8"),
   ("Cache-Control", "no-cache, no-transform"),
   ("Connection", "keep-alive")]

/-- The full handler (source lines 195-420): method check, credential check,
then the committed 200 stream. -/
def handler (method : String) (env : HandlerEnv) : HandlerResult :=
  if method ≠ "POST" then
    ⟨405, [("Allow", "POST")], some "Method not allowed", [], []⟩
  else if !env.hasApiKey then
    ⟨500, [], some "OPENAI_KEY is not configured", [], []⟩
  else
    let out := runStream env
    ⟨200, streamHeaders, none, out.1, out.2⟩

/-- State of the `ProgressStreamEmitter` closures (source lines 216-243):
the frames written so far and the `responseEnded` guard. -/
structure EmitterState where
  frames : List Frame
  ended : Bool
  deriving DecidableEq, Repr

/-- `writeLine` (source lines 217-222): a write after the response has ended
is a no-op. -/
def writeLine (st : EmitterState) (f : Frame) : EmitterState :=
  if st.ended then st else ⟨st.frames ++ [f], st.ended⟩

/-- `endResponse` (source lines 224-229). -/
def endResponse (st : EmitterState) : EmitterState :=
  if st.ended then st else ⟨st.frames, true⟩

/-- The three emit operations the orchestrator can perform. -/
inductive EmitOp where
  | progress (message : String) : EmitOp
  | error (message : String) : EmitOp
  | result (transcript dmSummary : String)
      (summaries : List PlayerSummary) : EmitOp
  deriving DecidableEq, Repr

/-- `sendProgress`, `sendError`, `sendResult` (source lines 231-243). -/
def sendOp (st : EmitterState) (op : EmitOp) : EmitterState :=
  match op with
  | EmitOp.progress m => writeLine st (Frame.progress m)
  | EmitOp.error m => endResponse (writeLine st (Frame.error m))
  | EmitOp.result t d s => endResponse (writeLine st (Frame.result t d s))

/-- Whether a frame is terminal (`result` or `error`). -/
def isTerminalFrame : Frame → Bool
  | Frame.progress _ => false
  | Frame.error _ => true
  | Frame.result _ _ _ => true

/-- Run a sequence of emit operations from the fresh emitter state. -/
def runOps (ops : List EmitOp) : EmitterState :=
  ops.foldl sendOp ⟨[], false⟩

/-- Number of successful deletions of a given path in a trace. -/
def unlinkCount (p : String) : List FsOp → Nat
  | [] => 0
  | FsOp.unlink q :: rest => (if q = p then 1 else 0) + unlinkCount p rest
  | _ :: rest => unlinkCount p rest

/-- Invariant of the emitter state: before the terminal frame every written
frame is a progress frame; once ended, the frames are some progress frames
followed by exactly one terminal frame. -/
def EmInv (st : EmitterState) : Prop :=
  (st.ended = false ∧ ∀ f ∈ st.frames, isTerminalFrame f = false)
  ∨ (st.ended = true ∧ ∃ ps t, st.frames = ps ++ [t]
      ∧ (∀ f ∈ ps, isTerminalFrame f = false) ∧ isTerminalFrame t = true)

/-- The §8 spec example reply: an overall summary and an entry for Mira
only, on the roster Mira, Tobo. -/
def exampleRaw : Option Json :=
  some (Json.obj
    [("dmSummary", Json.str "The party explored the ruins."),
     ("players", Json.arr
       [Json.obj
         [("name", Json.str "Mira"),
          ("points", Json.arr
            [Json.str "Found a key",
             Json.str "Fought a wraith",
             Json.str "Opened the vault"])]])])

/-- A reply covering the roster name Alice twice and the off-roster name
Bob once. -/
def c1raw : Option Json :=
  some (Json.obj [("players", Json.arr
    [Json.obj [("name", Json.str "Bob"), ("points", Json.arr [])],
     Json.obj [("name", Json.str "Alice"), ("points", Json.arr [])],
     Json.obj [("name", Json.str "Alice"), ("points", Json.arr [])]])])

/-- A typical uploaded temp file: original name with extension, bare temp
path. -/
def exampleFile : FormFile := ⟨some "voice.mp3", none, "/tmp/u1", 5⟩

/-- A multipart payload with an uploaded audio file but no players field. -/
def emptyRosterMp : Multipart :=
  ⟨FieldVal.absent, FileVal.single exampleFile, FileVal.absent⟩

/-- Environment: credential present, upload decoded, but empty roster. -/
def c4env : HandlerEnv :=
  ⟨true, Except.ok emptyRosterMp, false, false, 5,
   Except.ok "hello", Except.ok (some none)⟩

/-- A multipart payload whose single players entry is blank after trim. -/
def blankRosterMp : Multipart :=
  ⟨FieldVal.one ("  ", none), FileVal.single exampleFile, FileVal.absent⟩

/-- Environment: upload decoded with an audio file, roster blank after
normalization. -/
def c5leakEnv : HandlerEnv :=
  ⟨true, Except.ok blankRosterMp, false, false, 5,
   Except.ok "hello", Except.ok (some none)⟩

/-- A well-formed multipart payload with one player and the audio file. -/
def okMp : Multipart :=
  ⟨FieldVal.one ("Mira", none), FileVal.single exampleFile, FileVal.absent⟩

/-- Environment of a fully successful request. -/
def okEnv : HandlerEnv :=
  ⟨true, Except.ok okMp, false, false, 5, Except.ok "hello",
   Except.ok (some (some (Json.obj [("players", Json.arr [])])))⟩

/-- Environment of a request whose uploaded audio file is zero bytes. -/
def zeroEnv : HandlerEnv :=
  ⟨true, Except.ok okMp, false, false, 0, Except.ok "hello",
   Except.ok (some none)⟩

/-- A multipart payload whose players field decodes to the JSON array
containing the numbers 1 and 2. -/
def c10mp : Multipart :=
  ⟨FieldVal.one ("[1,2]", some (Json.arr [Json.num 1, Json.num 2])),
   FileVal.single exampleFile, FileVal.absent⟩

/-- Environment for the non-string roster element request. -/
def c10env : HandlerEnv :=
  ⟨true, Except.ok c10mp, false, false, 5,
   Except.ok "hello", Except.ok (some none)⟩

/-- An upload whose filename extension disagrees in case with its MIME type
and whose temp path already carries the extension in upper case. -/
def mp3File : FormFile := ⟨some "voice.MP3", some "audio/wav", "/tmp/ABC.MP3", 7⟩

end DndAI

namespace DndAI

theorem mem_dedupFirst (l : List String) (n : String) :
    n ∈ dedupFirst l ↔ n ∈ l := by
  induction l with
  | nil => simp [dedupFirst]
  | cons x xs ih =>
    by_cases hx : n = x
    · simp [dedupFirst, hx]
    · simp [dedupFirst, List.mem_filter, bne_iff_ne, hx, ih]

theorem reconcile_coverage (kept : List PlayerSummary) (players : List String)
    (n : String) (hn : n ∈ players) :
    n ∈ (reconcile kept players).map PlayerSummary.name := by
  unfold reconcile
  rw [List.map_append]
  by_cases hk : n ∈ kept.map PlayerSummary.name
  · exact List.mem_append_left _ hk
  · refine List.mem_append_right _ ?_
    rw [List.map_map]
    refine List.mem_map.mpr ⟨n, ?_, rfl⟩
    rw [List.mem_filter]
    exact ⟨(mem_dedupFirst players n).mpr hn, by simpa using hk⟩

theorem parseSummariesBody_ok_shape (raw : Option Json) (players : List String)
    (r : ParsedSummaryResult) (h : parseSummariesBody raw players = Except.ok r) :
    (∃ kept, r.summaries = reconcile kept players)
    ∧ 0 < r.overallSummary.length := by
  have hmsg : 0 < missingOverallMessage.length := by decide
  cases raw with
  | none => cases h
  | some j =>
    simp only [parseSummariesBody] at h
    repeat' split at h
    all_goals first
      | exact Except.noConfusion h
      | (injection h with h2; subst h2; exact ⟨⟨_, rfl⟩, by assumption⟩)

theorem parseSummaries_coverage_aux (raw : Option Json) (players : List String)
    (n : String) (hn : n ∈ players) :
    n ∈ (parseSummaries raw players).summaries.map PlayerSummary.name := by
  unfold parseSummaries
  cases hb : parseSummariesBody raw players with
  | ok r =>
    obtain ⟨⟨kept, hs⟩, -⟩ := parseSummariesBody_ok_shape raw players r hb
    rw [hs]
    exact reconcile_coverage kept players n hn
  | error e =>
    simp only [fallbackResult, List.map_map]
    exact List.mem_map.mpr ⟨n, hn, rfl⟩

theorem parseSummariesBody_invalid_players (raw : Option Json)
    (players : List String)
    (h : ∀ j es, raw = some j →
      j.getProp "players" ≠ Except.ok (some (Json.arr es))) :
    ∃ e, parseSummariesBody raw players = Except.error e := by
  cases raw with
  | none => exact ⟨_, rfl⟩
  | some j =>
    simp only [parseSummariesBody]
    split
    · exact ⟨_, rfl⟩
    · rename_i entries heq
      exact absurd heq (h j entries rfl)
    · exact ⟨_, rfl⟩

/-- Claim C1, amended: for every roster and every raw model output, every
roster name has at least one `PlayerSummary` of that name in the result of
`parseSummaries`; kept model-supplied entries are not restricted to the
roster and may duplicate a roster name. -/
theorem parseSummaries_roster_coverage (raw : Option Json)
    (players : List String) (n : String) (hn : n ∈ players) :
    n ∈ (parseSummaries raw players).summaries.map PlayerSummary.name :=
  parseSummaries_coverage_aux raw players n hn

/-- Witness for C1 at the §8 example: the omitted roster name Tobo is
covered in the parsed result. -/
theorem parseSummaries_roster_coverage_witness :
    "Tobo" ∈ (parseSummaries exampleRaw ["Mira", "Tobo"]).summaries.map
      PlayerSummary.name :=
  parseSummaries_roster_coverage exampleRaw ["Mira", "Tobo"] "Tobo" (by decide)

/-- Counterexample to C1 as stated: on the roster Alice, a reply with an
off-roster entry Bob and two Alice entries yields a result that contains a
name outside the roster and two entries for one roster name. -/
theorem parseSummaries_reconciliation_cex :
    ¬ (∀ s ∈ (parseSummaries c1raw ["Alice"]).summaries, s.name = "Alice")
    ∧ ((parseSummaries c1raw ["Alice"]).summaries.filter
        (fun s => s.name == "Alice")).length ≠ 1 := by
  constructor
  · decide
  · decide

/-- Claim C2, amended: whenever the raw output is not valid JSON or its
parsed value has no array `players` field, `parseSummaries` returns the
fixed fallback overall summary and one placeholder entry per roster element
(duplicate roster names yield duplicate placeholders), raising no error. -/
theorem parseSummaries_invalid_fallback (raw : Option Json)
    (players : List String)
    (h : ∀ j es, raw = some j →
      j.getProp "players" ≠ Except.ok (some (Json.arr es))) :
    parseSummaries raw players = fallbackResult players := by
  obtain ⟨e, he⟩ := parseSummariesBody_invalid_players raw players h
  unfold parseSummaries
  rw [he]

/-- Witness for C2: invalid JSON on the singleton roster A. -/
theorem parseSummaries_invalid_fallback_witness :
    parseSummaries none ["A"] = fallbackResult ["A"] :=
  parseSummaries_invalid_fallback none ["A"] (fun j es hje => by cases hje)

/-- Counterexample to C2 as stated: on the duplicate roster A, A the
fallback result carries two placeholder entries, not one per distinct
name. -/
theorem parseSummaries_fallback_duplicate_cex :
    (parseSummaries none ["A", "A"]).summaries
      = [⟨"A", [parseFailureMessage]⟩, ⟨"A", [parseFailureMessage]⟩]
    ∧ ¬ ((parseSummaries none ["A", "A"]).summaries
      = (dedupFirst ["A", "A"]).map (fun n => ⟨n, [parseFailureMessage]⟩)) := by
  constructor
  · decide
  · decide

/-- Claim C3: `parseSummaries` is total; on every raw output and roster it
returns a well-formed pair whose overall summary is non-empty and whose
summaries cover every roster name, never raising past its boundary. -/
theorem parseSummaries_total_wellformed (raw : Option Json)
    (players : List String) :
    0 < (parseSummaries raw players).overallSummary.length
    ∧ players.all (fun n => decide
        (n ∈ (parseSummaries raw players).summaries.map PlayerSummary.name))
      = true := by
  constructor
  · unfold parseSummaries
    cases hb : parseSummariesBody raw players with
    | ok r => exact (parseSummariesBody_ok_shape raw players r hb).2
    | error e =>
      show 0 < parseFailureMessage.length
      decide
  · rw [List.all_eq_true]
    intro n hn
    rw [decide_eq_true_eq]
    exact parseSummaries_coverage_aux raw players n hn

/-- Claim C9: reconciliation matches model entry names against roster names
by exact string equality; an entry whose name differs at all from the
single roster name leaves that roster name uncovered, so the result keeps
the model entry under its own name and appends the placeholder entry for
the roster name. -/
theorem parseSummaries_exact_name_match (r m : String) (pts : List Json)
    (h : m ≠ r) :
    (parseSummaries
      (some (Json.obj [("players", Json.arr
        [Json.obj [("name", Json.str m), ("points", Json.arr pts)]])]))
      [r]).summaries
    = [⟨m, cleanPoints pts⟩, ⟨r, [missingPlayerMessage]⟩] := by
  have h' : r ≠ m := Ne.symm h
  have hbody : parseSummariesBody
      (some (Json.obj [("players", Json.arr
        [Json.obj [("name", Json.str m), ("points", Json.arr pts)]])])) [r]
      = Except.ok ⟨missingOverallMessage,
          reconcile [⟨m, cleanPoints pts⟩] [r]⟩ := rfl
  unfold parseSummaries
  rw [hbody]
  simp [reconcile, dedupFirst, h']

/-- Witness for C9: the model entry Alice does not cover the roster name
alice, differing only in case. -/
theorem parseSummaries_exact_name_match_witness :
    "Alice" ≠ "alice"
    ∧ (parseSummaries
        (some (Json.obj [("players", Json.arr
          [Json.obj [("name", Json.str "Alice"),
            ("points", Json.arr [Json.str " swung a sword "])]])]))
        ["alice"]).summaries
      = [⟨"Alice", cleanPoints [Json.str " swung a sword "]⟩,
         ⟨"alice", [missingPlayerMessage]⟩] :=
  ⟨by decide,
   parseSummaries_exact_name_match "alice" "Alice" [Json.str " swung a sword "]
     (by decide)⟩

/-- Claim C7: the filename extension is the lowercased last dot-separated
alphanumeric suffix; when the filename yields an extension the MIME table is
never consulted; and when the temp path already ends with the resolved
extension, case-insensitively, resolution returns the path unchanged with
no rename or copy, leaving no duplicate file. -/
theorem extension_resolution_behaviour :
    extensionFromFilename (some "voice.MP3") = "mp3"
    ∧ (∀ mt mt' fp sz r c,
        ensureExtensionOnPath r c ⟨some "voice.MP3", mt, fp, sz⟩
          = ensureExtensionOnPath r c ⟨some "voice.MP3", mt', fp, sz⟩)
    ∧ (∀ f r c,
        strEndsWith (strToLower f.filepath) ("." ++ resolvedExtension f) = true →
        ensureExtensionOnPath r c f = Except.ok (f.filepath, [])) := by
  have hext : extensionFromFilename (some "voice.MP3") = "mp3" := by decide
  refine ⟨hext, ?_, ?_⟩
  · intro mt mt' fp sz r c
    simp [ensureExtensionOnPath, resolvedExtension, hext]
  · intro f r c h
    by_cases he : resolvedExtension f = ""
    · simp [ensureExtensionOnPath, he]
    · simp [ensureExtensionOnPath, he, h]

/-- Witness for C7: the upload whose filename says MP3 and whose MIME type
says wav resolves to mp3, and its temp path, which already ends with the
extension in upper case, is kept with no filesystem operation. -/
theorem extension_resolution_behaviour_witness :
    strEndsWith (strToLower mp3File.filepath)
      ("." ++ resolvedExtension mp3File) = true
    ∧ ensureExtensionOnPath false false mp3File
      = Except.ok ("/tmp/ABC.MP3", []) :=
  ⟨by decide,
   extension_resolution_behaviour.2.2 mp3File false false (by decide)⟩

theorem unlinkCount_append (p : String) (a b : List FsOp) :
    unlinkCount p (a ++ b) = unlinkCount p a + unlinkCount p b := by
  induction a with
  | nil => simp [unlinkCount]
  | cons o rest ih =>
    cases o <;> simp [unlinkCount, ih, Nat.add_assoc]

theorem ensureExtension_ops_no_unlink (r c : Bool) (f : FormFile)
    (rp : String) (ops1 : List FsOp)
    (h : ensureExtensionOnPath r c f = Except.ok (rp, ops1)) :
    unlinkCount rp ops1 = 0 := by
  have hne : f.filepath ≠ f.filepath ++ "." ++ resolvedExtension f := by
    intro he
    have hlen := congrArg String.length he
    rw [String.length_append, String.length_append] at hlen
    have h1 : ("." : String).length = 1 := rfl
    omega
  unfold ensureExtensionOnPath at h
  repeat' split at h
  all_goals first
    | exact Except.noConfusion h
    | (injection h with h2; cases h2; simp [unlinkCount, hne])

/-- Claim C5, amended: in every request that passes roster and audio
validation and extension resolution, the readable temp path is deleted
exactly once, whatever the outcomes of the size check, the transcription
and the completion stages; requests failing validation after upload or
failing extension resolution perform no deletion. -/
theorem temp_file_released_once (env : HandlerEnv) (mp : Multipart)
    (audioFile : FormFile) (readablePath : String) (ops1 : List FsOp)
    (ts : List String)
    (hmp : env.multipart = Except.ok mp)
    (hpn : (normalizePlayers mp.players).isEmpty = false)
    (htrim : trimAll (normalizePlayers mp.players) = Except.ok ts)
    (hclean : (ts.filter (fun s => s.length != 0)).isEmpty = false)
    (haudio : audioFileOf mp = some audioFile)
    (hext : ensureExtensionOnPath env.renameFails env.copyFails audioFile
      = Except.ok (readablePath, ops1)) :
    unlinkCount readablePath (runStream env).2 = 1 := by
  have h0 := ensureExtension_ops_no_unlink _ _ _ _ _ hext
  simp only [runStream, hmp, hpn, htrim, hclean, haudio, hext,
    Bool.false_eq_true, if_false]
  repeat' split
  all_goals simp [unlinkCount_append, h0, unlinkCount]

/-- Witness for C5 at the fully successful request. -/
theorem temp_file_released_once_witness :
    unlinkCount "/tmp/u1.mp3" (runStream okEnv).2 = 1 :=
  temp_file_released_once okEnv okMp exampleFile "/tmp/u1.mp3"
    [FsOp.rename "/tmp/u1" "/tmp/u1.mp3"] ["Mira"] rfl (by decide) (by decide)
    (by decide) (by decide) (by decide)

/-- Counterexample to C5 as stated: a request whose multipart ingestion
produced the uploaded audio file but whose roster is blank after
normalization ends with an error frame and performs no deletion at all, so
the temp file is not deleted exactly once. -/
theorem temp_file_leak_cex :
    audioFileOf blankRosterMp = some exampleFile
    ∧ (handler "POST" c5leakEnv).fsOps = []
    ∧ (handler "POST" c5leakEnv).frames
      = [Frame.progress "Parsing upload",
         Frame.error "Player names cannot be empty"] := by
  refine ⟨by decide, by decide, by decide⟩

/-- Claim C6: a zero-byte uploaded file makes the pipeline terminate with
the empty-file error frame before the transcription progress frame, the
readable temp path is deleted afterward, and the outcome is independent of
the transcription oracle, hence no transcription network call influences
it. -/
theorem zero_byte_fails_fast (env : HandlerEnv) (mp : Multipart)
    (audioFile : FormFile) (readablePath : String) (ops1 : List FsOp)
    (ts : List String)
    (hmp : env.multipart = Except.ok mp)
    (hpn : (normalizePlayers mp.players).isEmpty = false)
    (htrim : trimAll (normalizePlayers mp.players) = Except.ok ts)
    (hclean : (ts.filter (fun s => s.length != 0)).isEmpty = false)
    (haudio : audioFileOf mp = some audioFile)
    (hext : ensureExtensionOnPath env.renameFails env.copyFails audioFile
      = Except.ok (readablePath, ops1))
    (hsize : env.statSize = 0) :
    (runStream env).1
      = [Frame.progress "Parsing upload",
         Frame.progress "Preparing audio for transcription",
         Frame.error "Uploaded audio file is empty"]
    ∧ (runStream env).2 = ops1 ++ [FsOp.unlink readablePath]
    ∧ ∀ t, runStream ⟨env.hasApiKey, env.multipart, env.renameFails,
        env.copyFails, env.statSize, t, env.completion⟩ = runStream env := by
  refine ⟨?_, ?_, ?_⟩
  · simp [runStream, hmp, hpn, htrim, hclean, haudio, hext, hsize]
  · simp [runStream, hmp, hpn, htrim, hclean, haudio, hext, hsize]
  · intro t
    simp only [runStream, hmp, hpn, htrim, hclean, haudio, hext, hsize,
      Bool.false_eq_true, if_false, if_pos]

/-- Witness for C6 at the concrete zero-size request. -/
theorem zero_byte_fails_fast_witness :
    (runStream zeroEnv).1
      = [Frame.progress "Parsing upload",
         Frame.progress "Preparing audio for transcription",
         Frame.error "Uploaded audio file is empty"]
    ∧ (runStream zeroEnv).2
      = [FsOp.rename "/tmp/u1" "/tmp/u1.mp3"] ++ [FsOp.unlink "/tmp/u1.mp3"] :=
  ⟨(zero_byte_fails_fast zeroEnv okMp exampleFile "/tmp/u1.mp3"
      [FsOp.rename "/tmp/u1" "/tmp/u1.mp3"] ["Mira"] rfl (by decide) (by decide)
      (by decide) (by decide) (by decide) rfl).1,
   (zero_byte_fails_fast zeroEnv okMp exampleFile "/tmp/u1.mp3"
      [FsOp.rename "/tmp/u1" "/tmp/u1.mp3"] ["Mira"] rfl (by decide) (by decide)
      (by decide) (by decide) (by decide) rfl).2.1⟩

/-- Claim C4, amended: a non-streamed JSON error body is produced exactly
for a non-POST method (405 with Allow POST) and for the missing credential
(500); with a POST method and the credential present the response is the
committed 200 stream with no JSON body, so later failures, including empty
roster and missing audio file, can only surface as terminal error
frames. -/
theorem handler_error_channels (method : String) (env : HandlerEnv) :
    (method ≠ "POST" →
      handler method env
        = ⟨405, [("Allow", "POST")], some "Method not allowed", [], []⟩)
    ∧ (method = "POST" → env.hasApiKey = false →
      handler method env
        = ⟨500, [], some "OPENAI_KEY is not configured", [], []⟩)
    ∧ (method = "POST" → env.hasApiKey = true →
      (handler method env).status = 200
      ∧ (handler method env).jsonError = none) := by
  refine ⟨?_, ?_, ?_⟩
  · intro h
    simp [handler, h]
  · intro h1 h2
    subst h1
    simp [handler, h2]
  · intro h1 h2
    subst h1
    simp [handler, h2]

/-- Witness for C4: a GET request gets the 405 body; a POST request with
the credential present gets the 200 stream. -/
theorem handler_error_channels_witness :
    handler "GET" c4env
      = ⟨405, [("Allow", "POST")], some "Method not allowed", [], []⟩
    ∧ (handler "POST" c4env).status = 200
    ∧ (handler "POST" c4env).jsonError = none :=
  ⟨(handler_error_channels "GET" c4env).1 (by decide),
   (handler_error_channels "POST" c4env).2.2 rfl rfl⟩

/-- Counterexample to C4 as stated: the empty-roster failure is not a
non-streamed 400 JSON body; the response is the committed 200 stream with
no JSON body and the failure arrives as a terminal error frame. -/
theorem handler_empty_roster_streams_error_cex :
    (handler "POST" c4env).status = 200
    ∧ (handler "POST" c4env).jsonError = none
    ∧ (handler "POST" c4env).frames
      = [Frame.progress "Parsing upload",
         Frame.error "At least one player name is required"] := by
  refine ⟨by decide, by decide, by decide⟩

/-- Claim C10: a players field that decodes to the JSON array 1, 2 lets the
non-string elements into the roster; the trim step then throws a TypeError
which surfaces as an unexpected terminal error frame on the 200 stream
rather than as either roster validation error. -/
theorem non_string_roster_type_error :
    (handler "POST" c10env).status = 200
    ∧ (handler "POST" c10env).jsonError = none
    ∧ (handler "POST" c10env).frames
      = [Frame.progress "Parsing upload",
         Frame.error "TypeError: player.trim is not a function"] := by
  refine ⟨by decide, by decide, by decide⟩

theorem filter_isTerminal_nil (l : List Frame)
    (h : ∀ f ∈ l, isTerminalFrame f = false) :
    l.filter isTerminalFrame = [] := by
  induction l with
  | nil => rfl
  | cons x xs ih =>
    have hx : isTerminalFrame x = false := h x (by simp)
    have hxs : ∀ f ∈ xs, isTerminalFrame f = false :=
      fun f hf => h f (by simp [hf])
    simp [List.filter_cons, hx, ih hxs]

theorem emInv_sendOp (st : EmitterState) (op : EmitOp) (h : EmInv st) :
    EmInv (sendOp st op) := by
  rcases h with ⟨hend, hall⟩ | ⟨hend, ps, t, hfr, hps, ht⟩
  · cases op with
    | progress m =>
      left
      refine ⟨by simp [sendOp, writeLine, hend], ?_⟩
      intro f hf
      simp only [sendOp, writeLine, hend, if_false, Bool.false_eq_true] at hf
      rcases List.mem_append.mp hf with hf' | hf'
      · exact hall f hf'
      · simp only [List.mem_singleton] at hf'
        subst hf'
        rfl
    | error m =>
      right
      refine ⟨by simp [sendOp, writeLine, endResponse, hend], st.frames,
        Frame.error m, ?_, hall, rfl⟩
      simp [sendOp, writeLine, endResponse, hend]
    | result t' d s =>
      right
      refine ⟨by simp [sendOp, writeLine, endResponse, hend], st.frames,
        Frame.result t' d s, ?_, hall, rfl⟩
      simp [sendOp, writeLine, endResponse, hend]
  · have hid : sendOp st op = st := by
      cases op <;> simp [sendOp, writeLine, endResponse, hend]
    rw [hid]
    exact Or.inr ⟨hend, ps, t, hfr, hps, ht⟩

theorem foldl_emInv (ops : List EmitOp) :
    ∀ st, EmInv st → EmInv (List.foldl sendOp st ops) := by
  induction ops with
  | nil => exact fun st h => h
  | cons op rest ih =>
    exact fun st h => ih (sendOp st op) (emInv_sendOp st op h)

theorem emInv_runOps (ops : List EmitOp) : EmInv (runOps ops) :=
  foldl_emInv ops ⟨[], false⟩ (Or.inl ⟨rfl, by simp⟩)

/-- Claim C8: over every sequence of emit operations, at most one terminal
frame is written, every frame before the last is a progress frame, and once
the response has ended every further write is a no-op. -/
theorem emitter_protocol (ops : List EmitOp) :
    ((runOps ops).frames.filter isTerminalFrame).length ≤ 1
    ∧ (∀ f ∈ (runOps ops).frames.dropLast, isTerminalFrame f = false)
    ∧ ∀ op, (runOps ops).ended = true → sendOp (runOps ops) op = runOps ops := by
  rcases emInv_runOps ops with ⟨hend, hall⟩ | ⟨hend, ps, t, hfr, hps, ht⟩
  · refine ⟨?_, ?_, ?_⟩
    · rw [filter_isTerminal_nil _ hall]
      simp
    · exact fun f hf => hall f (List.mem_of_mem_dropLast hf)
    · intro op h
      rw [hend] at h
      cases h
  · refine ⟨?_, ?_, ?_⟩
    · rw [hfr, List.filter_append, filter_isTerminal_nil ps hps]
      simp [List.filter_cons, ht]
    · intro f hf
      rw [hfr, List.dropLast_concat] at hf
      exact hps f hf
    · intro op h
      cases op <;> simp [sendOp, writeLine, endResponse, hend]

/-- Witness for C8 on a progress frame followed by an error frame: one
terminal frame, the preceding frame is progress, and a write after the end
is a no-op. -/
theorem emitter_protocol_witness :
    ((runOps [EmitOp.progress "a", EmitOp.error "b"]).frames.filter
      isTerminalFrame).length ≤ 1
    ∧ isTerminalFrame (Frame.progress "a") = false
    ∧ sendOp (runOps [EmitOp.progress "a", EmitOp.error "b"])
        (EmitOp.progress "c")
      = runOps [EmitOp.progress "a", EmitOp.error "b"] :=
  ⟨(emitter_protocol [EmitOp.progress "a", EmitOp.error "b"]).1,
   (emitter_protocol [EmitOp.progress "a", EmitOp.error "b"]).2.1
     (Frame.progress "a") (by decide),
   (emitter_protocol [EmitOp.progress "a", EmitOp.error "b"]).2.2
     (EmitOp.progress "c") (by decide)⟩

end DndAI

